import Mathlib

/-!
Shallow embedding of the filter/rank/aggregate query layer of the
Top-2000-companies dashboard (`app.py` and its near-duplicate
`Final Project.py`).  The embedded operations are:

* `rankByMetric` — `filtered_df = df[df['Continent'] == continent]` followed by
  `filtered_sorted = filtered_df.sort_values(by=metric, ascending=False).head(top_n)`
  (lines 40-41 of `app.py`);
* `correlation` — `df[x].corr(df[y])` inside `describe_relationship`
  (line 101 of `app.py`), pandas' Pearson coefficient, with `none`
  standing for the float NaN that pandas yields when the coefficient
  is undefined;
* `safe_get_columns` / `safeColumnMeans` — the
  `try: [df[col].mean() for col in cols] except KeyError: [0 for _ in cols]`
  fallback (lines 111-115 of `app.py`).
-/

/-- One row of `Top2000_Companies_Globally_Fixed.csv` as used by the app.
The four financial metrics are totals (the spec's data model: non-negative
reals); the two geographic columns may be missing (`dropna` is applied to
them before the map is drawn), so they are `Option`-valued. -/
structure Record where
  company : String
  continent : String
  country : String
  sales : ℚ
  profits : ℚ
  assets : ℚ
  marketValue : ℚ
  latitude : Option ℚ
  longitude : Option ℚ
deriving DecidableEq

/-- The in-memory dataframe `df`: an ordered collection of rows. -/
abbrev Dataset := List Record

/-- The four metric columns offered by the sidebar `selectbox`
(`'Sales ($billion)', 'Profits ($billion)', 'Assets ($billion)',
'Market Value ($billion)'`, line 36 of `app.py`). -/
inductive Metric where
  | sales
  | profits
  | assets
  | marketValue
deriving DecidableEq

/-- Value of a metric column in a row (`df[metric]` at that row). -/
def Record.metricVal (r : Record) : Metric → ℚ
  | .sales => r.sales
  | .profits => r.profits
  | .assets => r.assets
  | .marketValue => r.marketValue

/-- `a` ranks at least as high as `b` for the descending sort by `m`. -/
def metricGe (m : Metric) (a b : Record) : Prop :=
  b.metricVal m ≤ a.metricVal m

instance (m : Metric) : DecidableRel (metricGe m) :=
  fun a b => inferInstanceAs (Decidable (b.metricVal m ≤ a.metricVal m))

instance (m : Metric) : IsTotal Record (metricGe m) :=
  ⟨fun a b => le_total (b.metricVal m) (a.metricVal m)⟩

instance (m : Metric) : IsTrans Record (metricGe m) :=
  ⟨fun _ _ _ h1 h2 => le_trans h2 h1⟩

/-- `filtered_df.sort_values(by=metric, ascending=False)` (line 41 of
`app.py`).  pandas' `nargsort` realises a descending sort as: reverse the
values, argsort ascending, index, reverse the indexer; with a stable argsort
kernel this is exactly the stable descending sort, which we write directly
as an insertion sort by `metricGe`.  Note the source uses `sort_values`'
default `kind='quicksort'` (numpy introsort), whose order among tied keys
is implementation-defined for arrays above the introsort insertion-sort
cutoff; this model fixes the stable kernel, and no theorem below about
claims other than tie order depends on that choice. -/
def sortValuesDesc (m : Metric) (l : List Record) : List Record :=
  List.insertionSort (metricGe m) l

/-- `df[df['Continent'] == continent]` (line 40 of `app.py`): the rows
whose `Continent` cell equals the selected continent, in dataset order. -/
def filterContinent (d : Dataset) (c : String) : List Record :=
  d.filter (fun r => r.continent == c)

/-- The query `filtered_sorted` of lines 40-41 of `app.py`: filter by
continent, sort by the metric descending, truncate to the first `n` rows
(`.head(top_n)`). -/
def rankByMetric (d : Dataset) (c : String) (m : Metric) (n : ℕ) : List Record :=
  (sortValuesDesc m (filterContinent d c)).take n

example :
    rankByMetric
      [⟨"A", "Asia", "x", 10, 0, 0, 0, none, none⟩,
       ⟨"B", "Asia", "x", 30, 0, 0, 0, none, none⟩,
       ⟨"C", "Europe", "x", 20, 0, 0, 0, none, none⟩]
      "Asia" Metric.sales 5 =
      [⟨"B", "Asia", "x", 30, 0, 0, 0, none, none⟩,
       ⟨"A", "Asia", "x", 10, 0, 0, 0, none, none⟩] := by
  decide

/-- Sum of a list of rationals. -/
def listSum (l : List ℚ) : ℚ := l.foldr (· + ·) 0

/-- Arithmetic mean of a list of rationals (`0` for the empty list by the
`ℚ` convention `x / 0 = 0`; the empty case is guarded wherever pandas
would yield NaN instead). -/
def listMean (l : List ℚ) : ℚ := listSum l / l.length

/-- The present (non-NaN) values of a column, in row order: pandas'
NaN-skipping view of a series. -/
def presents (xs : List (Option ℚ)) : List ℚ := xs.filterMap id

/-- Row-aligned pairs where both series have a present value: the rows
pandas' `nancorr` keeps after masking out rows with a NaN on either side. -/
def presentPairs (xs ys : List (Option ℚ)) : List (ℚ × ℚ) :=
  (xs.zip ys).filterMap (fun p => p.1.bind (fun a => p.2.map (fun b => (a, b))))

/-- Sum of products of deviations from the mean,
`Σ (xᵢ - mean xs) * (yᵢ - mean ys)` over aligned rows: the shared
numerator of covariance and Pearson correlation. -/
def devSum (xs ys : List ℚ) : ℚ :=
  listSum ((xs.zip ys).map (fun p => (p.1 - listMean xs) * (p.2 - listMean ys)))

/-- Sum of squared deviations from the mean, `Σ (xᵢ - mean xs)²`;
zero exactly when the list has no two distinct values. -/
def varSum (xs : List ℚ) : ℚ := devSum xs xs

/-- `Series.corr` with Pearson's coefficient (pandas default), the
engine behind `df[x].corr(df[y])` on line 101 of `app.py`:
keep the rows where both values are present, and compute
`Σ dx dy / √(Σ dx² * Σ dy²)`.  The result is `none` exactly where the
float computation yields NaN: fewer than 2 paired observations, or a
zero-variance column (a `0 / 0` in the float world).  pandas renders
that NaN, never an exception and never a silent `0`. -/
noncomputable def corrSeries (xs ys : List (Option ℚ)) : Option ℝ :=
  if (presentPairs xs ys).length < 2 ∨
      varSum ((presentPairs xs ys).map Prod.fst) = 0 ∨
      varSum ((presentPairs xs ys).map Prod.snd) = 0 then
    none
  else
    some ((devSum ((presentPairs xs ys).map Prod.fst)
            ((presentPairs xs ys).map Prod.snd) : ℚ) /
      Real.sqrt ((varSum ((presentPairs xs ys).map Prod.fst) *
          varSum ((presentPairs xs ys).map Prod.snd) : ℚ) : ℝ))

/-- The metric column `df[x]` as an (all-present) series. -/
def metricColO (d : Dataset) (m : Metric) : List (Option ℚ) :=
  d.map (fun r => some (r.metricVal m))

/-- `df[x].corr(df[y])` for two metric columns of the loaded dataframe
(line 101 of `app.py`); `none` is pandas' NaN. -/
noncomputable def correlation (d : Dataset) (x y : Metric) : Option ℝ :=
  corrSeries (metricColO d x) (metricColO d y)

/-- `df[col]` for the purposes of `df[col].mean()` in `safe_get_columns`:
`some` the series when `col` is one of the numeric columns of the fixed
CSV header, `none` when the name is absent (pandas raises `KeyError`).
The three text columns (`Company`, `Continent`, `Country`) are outside
this model: the source never requests their mean, and calling `.mean()`
on them would raise a `TypeError`, which `safe_get_columns` does not
catch — neither branch of the modelled fallback. -/
def colSeries (d : Dataset) (col : String) : Option (List (Option ℚ)) :=
  if col = "Sales ($billion)" then some (d.map (fun r => some r.sales))
  else if col = "Profits ($billion)" then some (d.map (fun r => some r.profits))
  else if col = "Assets ($billion)" then some (d.map (fun r => some r.assets))
  else if col = "Market Value ($billion)" then some (d.map (fun r => some r.marketValue))
  else if col = "Latitude_final" then some (d.map (fun r => r.latitude))
  else if col = "Longitude_final" then some (d.map (fun r => r.longitude))
  else none

/-- `Series.mean()`: the mean of the present values, NaN (`none`) when no
value is present. -/
def seriesMean (xs : List (Option ℚ)) : Option ℚ :=
  if (presents xs).length = 0 then none else some (listMean (presents xs))

/-- `df[col].mean()`: outer `none` is a `KeyError` (column name absent),
inner `none` is a NaN mean. -/
def meanOfCol (d : Dataset) (col : String) : Option (Option ℚ) :=
  (colSeries d col).map seriesMean

/-- The list comprehension `[df[col].mean() for col in cols]`, evaluated
left to right; the first `KeyError` aborts the whole comprehension
(`none`), discarding results already computed. -/
def tryMapMeans (d : Dataset) : List String → Option (List (Option ℚ))
  | [] => some []
  | c :: cs =>
    match meanOfCol d c with
    | none => none
    | some v => (tryMapMeans d cs).map (fun vs => v :: vs)

/-- `safe_get_columns` (lines 111-115 of `app.py`): try the comprehension;
on `KeyError` return `[0 for _ in cols]` instead — the all-or-nothing
fallback, zeroing every entry when any single lookup fails. -/
def safe_get_columns (d : Dataset) (cols : List String) : List (Option ℚ) :=
  match tryMapMeans d cols with
  | some vs => vs
  | none => cols.map (fun _ => some 0)

/-- The `safeColumnMeans` mapping of the spec: each requested column name
paired with its (fallback-aware) mean, as built by `dict(zip(...))` on
line 117 of `app.py`. -/
def safeColumnMeans (d : Dataset) (cols : List String) : List (String × Option ℚ) :=
  cols.zip (safe_get_columns d cols)

/-- One request the Query Engine can serve: the three operations of the
spec, each a function of the dataframe and primitive parameters. -/
inductive Query where
  | rank : String → Metric → ℕ → Query
  | corrOf : Metric → Metric → Query
  | colMeans : List String → Query

/-- The possible results of a query. -/
inductive QueryOut where
  | ranked : List Record → QueryOut
  | coeff : Option ℝ → QueryOut
  | meansOut : List (String × Option ℚ) → QueryOut

/-- Run one query against the global dataframe binding, in explicit
state-passing form: the result, paired with the dataframe after the run.
In the source every step builds a fresh frame — boolean-mask indexing,
`sort_values` (default `inplace=False`), `head`, `Series.mean`,
`Series.corr` — and `df` is never rebound after `load_data()`, so the
state out is the state in. -/
noncomputable def runQuery (d : Dataset) : Query → QueryOut × Dataset
  | .rank c m n => (.ranked (rankByMetric d c m n), d)
  | .corrOf x y => (.coeff (correlation d x y), d)
  | .colMeans cols => (.meansOut (safeColumnMeans d cols), d)

/-- The dataframe binding left after serving a whole sequence of queries. -/
noncomputable def runQueries (d : Dataset) (qs : List Query) : Dataset :=
  qs.foldl (fun s q => (runQuery s q).2) d

/-- A row with the given company name, continent and sales, other fields
fixed; concrete material for the witnesses below. -/
def mkRow (name cont : String) (s p : ℚ) : Record :=
  ⟨name, cont, "X", s, p, 1, 1, none, none⟩

/-- A small concrete dataset: three Asian rows (one pair tied on sales)
and one European row. -/
def dW : Dataset :=
  [mkRow "A" "Asia" 10 1, mkRow "B" "Asia" 30 2, mkRow "C" "Europe" 20 3,
   mkRow "D" "Asia" 30 4]

/-- A two-row dataset whose sales differ and whose profits are constant. -/
def dV : Dataset := [mkRow "A" "Asia" 1 5, mkRow "B" "Asia" 2 5]

theorem listSum_cons (a : ℚ) (t : List ℚ) : listSum (a :: t) = a + listSum t := rfl

theorem listSum_eq_zero : ∀ {l : List ℚ}, (∀ x ∈ l, x = 0) → listSum l = 0
  | [], _ => rfl
  | a :: t, h => by
    rw [listSum_cons, h a (List.mem_cons_self a t),
      listSum_eq_zero (fun x hx => h x (List.mem_cons_of_mem a hx)), add_zero]

theorem listSum_const (c : ℚ) : ∀ l : List ℚ, (∀ x ∈ l, x = c) → listSum l = c * l.length
  | [], _ => by simp [listSum]
  | a :: t, h => by
    rw [listSum_cons, h a (List.mem_cons_self a t),
      listSum_const c t (fun x hx => h x (List.mem_cons_of_mem a hx)), List.length_cons]
    push_cast
    ring

theorem listMean_const {l : List ℚ} {c : ℚ} (hne : l ≠ []) (h : ∀ x ∈ l, x = c) :
    listMean l = c := by
  have hlen : (l.length : ℚ) ≠ 0 := by
    have h0 : l.length ≠ 0 := fun h0 => hne (List.length_eq_zero.mp h0)
    exact_mod_cast Nat.cast_ne_zero.mpr h0
  rw [listMean, listSum_const c l h, mul_div_assoc, div_self hlen, mul_one]

theorem varSum_of_const {l : List ℚ} (h : ∀ a ∈ l, ∀ b ∈ l, a = b) : varSum l = 0 := by
  cases l with
  | nil => rfl
  | cons c t =>
    have hc : ∀ x ∈ c :: t, x = c := fun x hx => h x hx c (List.mem_cons_self c t)
    have hmean : listMean (c :: t) = c := listMean_const (List.cons_ne_nil c t) hc
    rw [varSum, devSum]
    apply listSum_eq_zero
    intro x hx
    rw [List.mem_map] at hx
    obtain ⟨p, hp, rfl⟩ := hx
    rw [hmean, hc p.1 (List.of_mem_zip hp).1, sub_self, zero_mul]

theorem varSum_short : ∀ {l : List ℚ}, l.length ≤ 1 → varSum l = 0
  | [], _ => rfl
  | [a], _ => by norm_num [varSum, devSum, listSum, listMean]
  | _ :: _ :: _, h => absurd h (by simp)

theorem presentPairs_self : ∀ xs : List (Option ℚ),
    presentPairs xs xs = (presents xs).map (fun a => (a, a))
  | [] => rfl
  | none :: t => by simpa [presentPairs, presents] using presentPairs_self t
  | some a :: t => by simpa [presentPairs, presents] using presentPairs_self t

theorem map_fst_presentPairs_self (xs : List (Option ℚ)) :
    (presentPairs xs xs).map Prod.fst = presents xs := by
  rw [presentPairs_self, List.map_map]
  exact List.map_id _

theorem map_snd_presentPairs_self (xs : List (Option ℚ)) :
    (presentPairs xs xs).map Prod.snd = presents xs := by
  rw [presentPairs_self, List.map_map]
  exact List.map_id _

theorem corrSeries_self {xs : List (Option ℚ)} (h : 0 < varSum (presents xs)) :
    corrSeries xs xs = some 1 := by
  have hlen2 : ¬ (presentPairs xs xs).length < 2 := by
    intro hl
    have hl1 : (presents xs).length ≤ 1 := by
      have hc := congrArg List.length (map_fst_presentPairs_self xs)
      rw [List.length_map] at hc
      omega
    exact absurd (varSum_short hl1) (ne_of_gt h)
  rw [corrSeries, map_fst_presentPairs_self, map_snd_presentPairs_self, if_neg]
  · have h0 : (0 : ℝ) < ((varSum (presents xs) : ℚ) : ℝ) := by exact_mod_cast h
    have hdev : devSum (presents xs) (presents xs) = varSum (presents xs) := rfl
    rw [hdev]
    congr 1
    push_cast
    rw [Real.sqrt_mul_self h0.le, div_self (ne_of_gt h0)]
  · push_neg
    exact ⟨Nat.not_lt.mp hlen2, ne_of_gt h, ne_of_gt h⟩

theorem tryMapMeans_length (d : Dataset) :
    ∀ (cols : List String) (vs : List (Option ℚ)),
      tryMapMeans d cols = some vs → vs.length = cols.length
  | [], vs, h => by
    rw [tryMapMeans] at h
    cases h
    rfl
  | c :: cs, vs, h => by
    rw [tryMapMeans] at h
    cases hm : meanOfCol d c with
    | none => rw [hm] at h; cases h
    | some v =>
      rw [hm] at h
      cases ht : tryMapMeans d cs with
      | none => rw [ht] at h; cases h
      | some ws =>
        rw [ht] at h
        cases h
        rw [List.length_cons, List.length_cons, tryMapMeans_length d cs ws ht]

theorem tryMapMeans_none (d : Dataset) {col : String} (hm : meanOfCol d col = none) :
    ∀ {cols : List String}, col ∈ cols → tryMapMeans d cols = none
  | c :: cs, hmem => by
    rw [tryMapMeans]
    rcases List.mem_cons.mp hmem with rfl | htail
    · rw [hm]
    · cases hc : meanOfCol d c with
      | none => rfl
      | some v => rw [tryMapMeans_none d hm htail]; rfl

theorem safe_get_columns_fallback {d : Dataset} {cols : List String}
    (h : tryMapMeans d cols = none) :
    safe_get_columns d cols = cols.map (fun _ => some 0) := by
  rw [safe_get_columns, h]

/-- C1: for every dataset `D`, continent `C`, metric `m` and `topN` `n`,
`rankByMetric(D, C, m, n)` returns a sequence whose length is at most `n`,
in which every element's Continent field equals `C`, and which is sorted in
descending order by the value of `m`. -/
theorem rankByMetric_correct (d : Dataset) (c : String) (m : Metric) (n : ℕ) :
    (rankByMetric d c m n).length ≤ n ∧
    (∀ r ∈ rankByMetric d c m n, r.continent = c) ∧
    List.Sorted (metricGe m) (rankByMetric d c m n) := by
  refine ⟨List.length_take_le n _, ?_, ?_⟩
  · intro r hr
    have h1 : r ∈ sortValuesDesc m (filterContinent d c) := List.mem_of_mem_take hr
    rw [sortValuesDesc] at h1
    have h2 : r ∈ filterContinent d c := (List.mem_insertionSort (metricGe m)).mp h1
    rw [filterContinent] at h2
    exact beq_iff_eq.mp (List.mem_filter.mp h2).2
  · exact (List.sorted_insertionSort (metricGe m) (filterContinent d c)).sublist
      (List.take_sublist n _)

theorem rankByMetric_correct_witness :
    (rankByMetric dW "Asia" Metric.sales 2).length ≤ 2 ∧
    (∀ r ∈ rankByMetric dW "Asia" Metric.sales 2, r.continent = "Asia") ∧
    List.Sorted (metricGe Metric.sales) (rankByMetric dW "Asia" Metric.sales 2) :=
  rankByMetric_correct dW "Asia" Metric.sales 2

/-- C5: for every dataset `D` and continent `C` matching zero rows of `D`,
`rankByMetric(D, C, m, n)` returns the empty sequence (and, being a total
function, raises no error). -/
theorem rankByMetric_empty_on_no_match (d : Dataset) (c : String) (m : Metric) (n : ℕ)
    (h : ∀ r ∈ d, r.continent ≠ c) : rankByMetric d c m n = [] := by
  have hf : filterContinent d c = [] := by
    rw [filterContinent]
    exact List.filter_eq_nil_iff.mpr (fun r hr => by simpa using h r hr)
  rw [rankByMetric, sortValuesDesc, hf]
  simp

theorem rankByMetric_empty_on_no_match_witness :
    (∀ r ∈ dV, r.continent ≠ "Europe") ∧ rankByMetric dV "Europe" Metric.sales 7 = [] :=
  ⟨by decide, rankByMetric_empty_on_no_match dV "Europe" Metric.sales 7 (by decide)⟩

/-- C6: when `n` exceeds the count of rows matching the continent,
`rankByMetric` returns all matching rows; in general the result length
equals `min(n, count of matching rows)`. -/
theorem rankByMetric_length_eq_min (d : Dataset) (c : String) (m : Metric) (n : ℕ) :
    ((filterContinent d c).length ≤ n →
      (rankByMetric d c m n).length = (filterContinent d c).length) ∧
    (rankByMetric d c m n).length = min n (filterContinent d c).length := by
  have hlen : (rankByMetric d c m n).length = min n (filterContinent d c).length := by
    rw [rankByMetric, List.length_take, sortValuesDesc, List.length_insertionSort]
  exact ⟨fun h => by omega, hlen⟩

theorem rankByMetric_length_eq_min_witness :
    (filterContinent dW "Asia").length ≤ 5 ∧
    (rankByMetric dW "Asia" Metric.sales 5).length = (filterContinent dW "Asia").length :=
  ⟨by decide, (rankByMetric_length_eq_min dW "Asia" Metric.sales 5).1 (by decide)⟩

/-- C3: when the request names a column that is absent from the dataset
(such as "NoSuchColumn"), `safeColumnMeans` does not raise and maps every
requested column — including the ones that do exist — to 0: the zero
fallback is all-or-nothing, triggered by any single failed lookup. -/
theorem safeColumnMeans_all_zero (d : Dataset) (cols : List String) (col : String)
    (h1 : col ∈ cols) (h2 : colSeries d col = none) :
    (safeColumnMeans d cols).map Prod.fst = cols ∧
    ∀ p ∈ safeColumnMeans d cols, p.2 = some 0 := by
  have hm : meanOfCol d col = none := by rw [meanOfCol, h2]; rfl
  have ht : tryMapMeans d cols = none := tryMapMeans_none d hm h1
  have hval : safe_get_columns d cols = cols.map (fun _ => some 0) :=
    safe_get_columns_fallback ht
  constructor
  · rw [safeColumnMeans, hval]
    exact List.map_fst_zip _ _ (by rw [List.length_map])
  · rintro ⟨u, v⟩ hp
    rw [safeColumnMeans, hval] at hp
    have h3 := (List.of_mem_zip hp).2
    rw [List.mem_map] at h3
    obtain ⟨a, -, hpa⟩ := h3
    exact hpa.symm

theorem safeColumnMeans_all_zero_witness :
    "NoSuchColumn" ∈ ["Sales ($billion)", "NoSuchColumn"] ∧
    colSeries dV "NoSuchColumn" = none ∧
    ((safeColumnMeans dV ["Sales ($billion)", "NoSuchColumn"]).map Prod.fst =
        ["Sales ($billion)", "NoSuchColumn"] ∧
      ∀ p ∈ safeColumnMeans dV ["Sales ($billion)", "NoSuchColumn"], p.2 = some 0) :=
  ⟨by decide, by decide,
    safeColumnMeans_all_zero dV ["Sales ($billion)", "NoSuchColumn"] "NoSuchColumn"
      (by decide) (by decide)⟩

/-- C4: `correlation(D, X, Y)` returns the distinguished undefined value
(`none`, pandas' NaN) — not an error and not 0 — whenever fewer than 2
valid paired observations exist or either column's present values are
constant. -/
theorem correlation_undefined (d : Dataset) (x y : Metric)
    (h : (presentPairs (metricColO d x) (metricColO d y)).length < 2 ∨
      (∀ a ∈ (presentPairs (metricColO d x) (metricColO d y)).map Prod.fst,
        ∀ b ∈ (presentPairs (metricColO d x) (metricColO d y)).map Prod.fst, a = b) ∨
      (∀ a ∈ (presentPairs (metricColO d x) (metricColO d y)).map Prod.snd,
        ∀ b ∈ (presentPairs (metricColO d x) (metricColO d y)).map Prod.snd, a = b)) :
    correlation d x y = none := by
  rw [correlation, corrSeries, if_pos]
  rcases h with h | h | h
  · exact Or.inl h
  · exact Or.inr (Or.inl (varSum_of_const h))
  · exact Or.inr (Or.inr (varSum_of_const h))

theorem correlation_undefined_witness :
    (∀ a ∈ (presentPairs (metricColO dV Metric.sales) (metricColO dV Metric.profits)).map
        Prod.snd,
      ∀ b ∈ (presentPairs (metricColO dV Metric.sales) (metricColO dV Metric.profits)).map
        Prod.snd, a = b) ∧
    correlation dV Metric.sales Metric.profits = none :=
  ⟨by decide,
    correlation_undefined dV Metric.sales Metric.profits (Or.inr (Or.inr (by decide)))⟩

/-- C7: the correlation of a metric column with itself is exactly 1 whenever
the column's values have positive variance. -/
theorem correlation_self_eq_one (d : Dataset) (x : Metric)
    (h : 0 < varSum (presents (metricColO d x))) :
    correlation d x x = some 1 := by
  rw [correlation]
  exact corrSeries_self h

theorem correlation_self_eq_one_witness :
    0 < varSum (presents (metricColO dV Metric.sales)) ∧
    correlation dV Metric.sales Metric.sales = some 1 := by
  have hp : presents (metricColO dV Metric.sales) = [1, 2] := rfl
  have hv : 0 < varSum (presents (metricColO dV Metric.sales)) := by
    rw [hp]
    norm_num [varSum, devSum, listSum, listMean]
  exact ⟨hv, correlation_self_eq_one dV Metric.sales hv⟩

/-- C8: rankByMetric is a deterministic pure function of its arguments —
serving the same `(continent, metric, topN)` request twice in a row, with
the dataframe left by the first call, yields the same output both times. -/
theorem rankByMetric_deterministic (d : Dataset) (c : String) (m : Metric) (n : ℕ) :
    (runQuery (runQuery d (Query.rank c m n)).2 (Query.rank c m n)).1 =
      (runQuery d (Query.rank c m n)).1 := rfl

/-- C9: no sequence of Query Engine calls — ranking, correlation, or safe
column means — mutates the dataset: the dataframe after serving any list of
queries is the dataframe loaded. -/
theorem runQueries_preserve_dataset (d : Dataset) (qs : List Query) :
    runQueries d qs = d := by
  induction qs generalizing d with
  | nil => rfl
  | cons q qs ih =>
    have h2 : (runQuery d q).2 = d := by cases q <;> rfl
    calc runQueries d (q :: qs) = runQueries (runQuery d q).2 qs := rfl
      _ = runQueries d qs := by rw [h2]
      _ = d := ih d

/-- C10: `safe_get_columns(cols)` returns a list exactly as long as `cols`,
in the successful branch and in the KeyError fallback branch alike, so the
`zip` with result labels never drops or misaligns an entry. -/
theorem safe_get_columns_length (d : Dataset) (cols : List String) :
    (safe_get_columns d cols).length = cols.length := by
  rw [safe_get_columns]
  cases ht : tryMapMeans d cols with
  | none => simp
  | some vs => exact tryMapMeans_length d cols vs ht
